import Mathlib

/-!
Verification of the Excel document provider
(`src/apps/api/native/src/document/providers/excel.rs`).

The provider converts a decoded workbook (ordered sheets, each a 2D grid of
typed cell values) into a `Document` made of `Table` blocks.  The functions
`parse_sheet_to_table`, `data_to_string`, `row_contains_text` and the body of
`parse_buffer` are transcribed from the Rust source.  The document model types
(`Document`, `Block`, `Table`, ...) live in `model.rs`, which is not part of
the provided sources, so they are modelled from the spec's data-model section;
likewise the calamine decoder is an external collaborator modelled by its
contract (a workbook is an ordered list of sheets, each with a name and a
grid-read result).
-/

namespace Excel

/-- Modelled from the spec: calamine's cell error enum (`CellErrorType`), the
payload of the `Error` raw-cell variant.  Variants as in calamine. -/
inductive CellErrorType where
  | Div0
  | NA
  | Name
  | Null
  | Num
  | Ref
  | Value
  | GettingData
deriving DecidableEq, Repr

/-- The Rust `{e:?}` debug rendering of `CellErrorType`: the derived `Debug`
prints the bare variant name. -/
def debugCellError : CellErrorType → String
  | .Div0 => "Div0"
  | .NA => "NA"
  | .Name => "Name"
  | .Null => "Null"
  | .Num => "Num"
  | .Ref => "Ref"
  | .Value => "Value"
  | .GettingData => "GettingData"

/-- Payload of `Data::Int` (Rust `i64`), modelled as an unbounded integer:
only its decimal rendering matters here. -/
abbrev I64 := Int

/-- Payload of `Data::Float` (Rust `f64`).  Floating point lies outside the
shallow embedding; the payload is modelled by its default `to_string`
rendering, which is all `data_to_string` uses. -/
abbrev F64Repr := String

/-- Payload of `Data::DateTime` (calamine `ExcelDateTime`), modelled by its
default `to_string` rendering, which is all `data_to_string` uses. -/
abbrev DateTimeRepr := String

/-- Raw cell value, transcribed from calamine's `Data` enum as used by
`excel.rs` (all nine variants). -/
inductive Data where
  | Int : I64 → Data
  | Float : F64Repr → Data
  | String : String → Data
  | Bool : Bool → Data
  | DateTime : DateTimeRepr → Data
  | DateTimeIso : String → Data
  | DurationIso : String → Data
  | Error : CellErrorType → Data
  | Empty : Data
deriving DecidableEq, Repr

/-- A sheet grid: ordered rows, each an ordered list of raw cell values. -/
abbrev Grid := List (List Data)

/-- Modelled from the spec: paragraph kind tag; this core only produces
`Normal`. -/
inductive ParagraphKind where
  | Normal
deriving DecidableEq, Repr

/-- Modelled from the spec: inline content; this core only produces
`Text`. -/
inductive Inline where
  | Text : String → Inline
deriving DecidableEq, Repr

/-- Modelled from the spec: a paragraph is a kind tag plus inlines. -/
structure Paragraph where
  kind : ParagraphKind
  inlines : List Inline
deriving DecidableEq, Repr

/-- Modelled from the spec: row kind tag, `Header` or `Body`. -/
inductive TableRowKind where
  | Header
  | Body
deriving DecidableEq, Repr

mutual
/-- Modelled from the spec: a block is a tagged variant; this core produces
`Table` blocks at the top level and `Paragraph` blocks inside cells. -/
inductive Block where
  | Table : Table → Block
  | Paragraph : Paragraph → Block

/-- Modelled from the spec: a table is an ordered sequence of rows. -/
inductive Table where
  | mk : List TableRow → Table

/-- Modelled from the spec: a table row is an ordered sequence of cells plus
a kind tag. -/
inductive TableRow where
  | mk : List TableCell → TableRowKind → TableRow

/-- Modelled from the spec: a table cell holds blocks plus `colspan` and
`rowspan` (Rust `NonZeroU32`, modelled as `Nat`; this core always uses 1). -/
inductive TableCell where
  | mk : List Block → Nat → Nat → TableCell
end

def Table.rows : Table → List TableRow
  | .mk rs => rs

def TableRow.cells : TableRow → List TableCell
  | .mk cs _ => cs

def TableRow.kind : TableRow → TableRowKind
  | .mk _ k => k

def TableCell.blocks : TableCell → List Block
  | .mk bs _ _ => bs

def TableCell.colspan : TableCell → Nat
  | .mk _ c _ => c

def TableCell.rowspan : TableCell → Nat
  | .mk _ _ r => r

/-- Modelled from the spec: document metadata is opaque and default-valued in
this core. -/
structure DocumentMetadata where
  fields : Unit
deriving DecidableEq, Repr

def DocumentMetadata.default : DocumentMetadata := ⟨()⟩

/-- Modelled from the spec: note type (defined elsewhere in the repo; this
core only ever produces an empty list of them). -/
structure Note where
  fields : Unit
deriving DecidableEq, Repr

/-- Modelled from the spec: comment type (defined elsewhere in the repo; this
core only ever produces an empty list of them). -/
structure Comment where
  fields : Unit
deriving DecidableEq, Repr

/-- Modelled from the spec: the top-level document artifact. -/
structure Document where
  blocks : List Block
  metadata : DocumentMetadata
  notes : List Note
  comments : List Comment

/-- Modelled from the spec: a per-sheet grid read error (opaque). -/
structure SheetReadError where
  fields : Unit
deriving DecidableEq, Repr

/-- Modelled from the spec: the fatal workbook-open error (opaque). -/
structure DecodeError where
  fields : Unit
deriving DecidableEq, Repr

/-- Modelled from the spec: the decoded workbook exposed by the external
decoder — its sheets in source order, each a name paired with the result of
reading that sheet's grid. -/
structure Workbook where
  sheets : List (String × Except SheetReadError Grid)

/-- Transcribed from `data_to_string` in `excel.rs`. -/
def data_to_string : Data → String
  | .Int i => toString i
  | .Float f => f
  | .String s => s
  | .Bool b => toString b
  | .DateTime dt => dt
  | .DateTimeIso dt => dt
  | .DurationIso d => d
  | .Error e => "Error: " ++ debugCellError e
  | .Empty => ""

/-- Transcribed from `row_contains_text` in `excel.rs`. -/
def row_contains_text (row : List Data) : Bool :=
  row.any fun cell => match cell with
    | .String _ => true
    | _ => false

/-- The per-cell closure inside `parse_sheet_to_table`: wrap a raw cell into a
`TableCell` with one `Paragraph(Normal)` holding one `Inline::Text`,
`colspan = 1`, `rowspan = 1`. -/
def cellOf (cell : Data) : TableCell :=
  TableCell.mk
    [Block.Paragraph ⟨ParagraphKind.Normal, [Inline.Text (data_to_string cell)]⟩]
    1 1

/-- The `for row in rows` loop of `parse_sheet_to_table`, carrying the
`is_first_row` flag.  Note the flag is mutated only inside the
`if !cells.is_empty()` branch, exactly as in the source. -/
def parseRowsLoop : List (List Data) → Bool → List TableRow
  | [], _ => []
  | row :: rest, is_first_row =>
    let cells := row.map cellOf
    if cells.isEmpty then
      parseRowsLoop rest is_first_row
    else
      let kind :=
        if is_first_row && row_contains_text row then TableRowKind.Header
        else TableRowKind.Body
      TableRow.mk cells kind :: parseRowsLoop rest false

/-- Transcribed from `parse_sheet_to_table` in `excel.rs`. -/
def parse_sheet_to_table (grid : Grid) : Option Table :=
  let table_rows := parseRowsLoop grid true
  if table_rows.isEmpty then none else some (Table.mk table_rows)

/-- The sheet loop of `parse_buffer`: for each sheet, if the grid read
succeeded and normalization yielded a table, push it as a block. -/
def assembleBlocks : List (String × Except SheetReadError Grid) → List Block
  | [] => []
  | (_, Except.error _) :: rest => assembleBlocks rest
  | (_, Except.ok grid) :: rest =>
    match parse_sheet_to_table grid with
    | some table => Block.Table table :: assembleBlocks rest
    | none => assembleBlocks rest

/-- Transcribed from `parse_buffer` in `excel.rs`, with the external
`open_workbook_auto_from_rs` call abstracted by its result: the `?` operator
propagates an open failure, and on success the sheet loop runs. -/
def parse_buffer (openResult : Except DecodeError Workbook) :
    Except DecodeError Document :=
  match openResult with
  | .error e => .error e
  | .ok workbook =>
    .ok { blocks := assembleBlocks workbook.sheets
          metadata := DocumentMetadata.default
          notes := []
          comments := [] }

/-- Transcribed from `name` in `excel.rs`. -/
def providerName : String := "excel"

end Excel

namespace Excel

/-! ## Characterization of the normalizer loop -/

/-- A retained non-first row: cells mapped through `cellOf`, kind `Body`. -/
def bodyRowOf (r : List Data) : TableRow :=
  TableRow.mk (r.map cellOf) TableRowKind.Body

/-- The first retained row: cells mapped through `cellOf`, kind `Header` iff
the source row contains a raw `String` cell. -/
def headRowOf (r : List Data) : TableRow :=
  TableRow.mk (r.map cellOf)
    (if row_contains_text r then TableRowKind.Header else TableRowKind.Body)

/-- The rows the loop produces: the retained source rows are exactly those
with at least one cell; the first retained row is header-detected, the rest
are `Body`. -/
def normRows (g : Grid) : List TableRow :=
  match g.filter (fun r => !r.isEmpty) with
  | [] => []
  | r :: rest => headRowOf r :: rest.map bodyRowOf

lemma map_cellOf_isEmpty (row : List Data) :
    (row.map cellOf).isEmpty = row.isEmpty := by
  cases row <;> rfl

lemma parseRowsLoop_false (g : Grid) :
    parseRowsLoop g false = (g.filter (fun r => !r.isEmpty)).map bodyRowOf := by
  induction g with
  | nil => rfl
  | cons row rest ih =>
    by_cases h : row.isEmpty
    · simp [parseRowsLoop, map_cellOf_isEmpty, h, List.filter_cons, ih]
    · simp [parseRowsLoop, map_cellOf_isEmpty, h, List.filter_cons, ih, bodyRowOf]

lemma parseRowsLoop_true (g : Grid) :
    parseRowsLoop g true = normRows g := by
  induction g with
  | nil => rfl
  | cons row rest ih =>
    by_cases h : row.isEmpty
    · simpa [parseRowsLoop, map_cellOf_isEmpty, h, normRows, List.filter_cons] using ih
    · simp [parseRowsLoop, map_cellOf_isEmpty, h, normRows, List.filter_cons,
        parseRowsLoop_false, headRowOf]

lemma normRows_length (g : Grid) :
    (normRows g).length = (g.filter (fun r => !r.isEmpty)).length := by
  unfold normRows
  cases g.filter (fun r => !r.isEmpty) <;> simp

lemma parse_none_iff_all_nil (g : Grid) :
    parse_sheet_to_table g = none ↔ ∀ row ∈ g, row = [] := by
  unfold parse_sheet_to_table
  rw [parseRowsLoop_true]
  constructor
  · intro h row hrow
    by_contra hne
    have hf : row ∈ g.filter (fun r => !r.isEmpty) := by
      refine List.mem_filter.mpr ⟨hrow, ?_⟩
      simpa [List.isEmpty_iff] using hne
    cases hfe : g.filter (fun r => !r.isEmpty) with
    | nil => rw [hfe] at hf; exact absurd hf (List.not_mem_nil _)
    | cons r rest => simp [normRows, hfe] at h
  · intro h
    have hfe : g.filter (fun r => !r.isEmpty) = [] := by
      refine List.filter_eq_nil_iff.mpr ?_
      intro row hrow
      simp [List.isEmpty_iff, h row hrow]
    simp [normRows, hfe]

lemma parse_some_rows {g : Grid} {t : Table}
    (h : parse_sheet_to_table g = some t) : t.rows = normRows g := by
  unfold parse_sheet_to_table at h
  rw [parseRowsLoop_true] at h
  by_cases he : (normRows g).isEmpty
  · simp [he] at h
  · simp [he] at h
    rw [← h, Table.rows]

lemma row_contains_text_iff (row : List Data) :
    row_contains_text row = true ↔ ∃ s, Data.String s ∈ row := by
  unfold row_contains_text
  rw [List.any_eq_true]
  constructor
  · rintro ⟨c, hc, hp⟩
    cases c with
    | String s => exact ⟨s, hc⟩
    | _ => simp at hp
  · rintro ⟨s, hs⟩
    exact ⟨Data.String s, hs, rfl⟩

end Excel

namespace Excel

/-! ## Claims -/

/-- C1: `parse_sheet_to_table` returns `none` exactly when no source row has
at least one cell; whenever some row has at least one cell it returns
`some table`, and the table's row count equals the number of source rows with
at least one cell. -/
theorem normalizer_none_iff_row_count (grid : Grid) :
    (parse_sheet_to_table grid = none ↔ ∀ row ∈ grid, row = []) ∧
    (∀ t, parse_sheet_to_table grid = some t →
      t.rows.length = grid.countP (fun row => !row.isEmpty)) := by
  constructor
  · exact parse_none_iff_all_nil grid
  · intro t ht
    rw [parse_some_rows ht, normRows_length, ← List.countP_eq_length_filter]

/-- C1 witness: on the grid `[[Empty], []]` the normalizer returns a table
with exactly one row, matching the count of rows with at least one cell. -/
theorem normalizer_none_iff_row_count_witness :
    (Table.mk [TableRow.mk [cellOf Data.Empty] TableRowKind.Body]).rows.length =
      ([[Data.Empty], []] : Grid).countP (fun row => !row.isEmpty) :=
  (normalizer_none_iff_row_count [[Data.Empty], []]).2 _ rfl

/-- C2: in a table produced by `parse_sheet_to_table`, the first retained row
(the first source row with at least one cell) has kind `Header` iff that
source row contains a raw `String` cell, and every later retained row has
kind `Body`. -/
theorem first_row_header_detection (grid : Grid) (t : Table)
    (h : parse_sheet_to_table grid = some t) :
    (∀ firstSrc, (grid.filter (fun r => !r.isEmpty)).head? = some firstSrc →
      ((t.rows.head?.map TableRow.kind = some TableRowKind.Header) ↔
        ∃ s, Data.String s ∈ firstSrc)) ∧
    (∀ r ∈ t.rows.tail, r.kind = TableRowKind.Body) := by
  have hrows := parse_some_rows h
  unfold normRows at hrows
  cases hf : grid.filter (fun r => !r.isEmpty) with
  | nil =>
    rw [hf] at hrows
    exfalso
    have : parse_sheet_to_table grid = none := by
      rw [parse_none_iff_all_nil]
      intro row hrow
      by_contra hne
      have hmem : row ∈ grid.filter (fun r => !r.isEmpty) := by
        refine List.mem_filter.mpr ⟨hrow, ?_⟩
        simpa [List.isEmpty_iff] using hne
      rw [hf] at hmem
      exact List.not_mem_nil _ hmem
    rw [this] at h
    exact Option.noConfusion h
  | cons r rest =>
    rw [hf] at hrows
    constructor
    · intro firstSrc hhead
      rw [hrows]
      simp only [List.head?_cons, Option.map_some] at hhead ⊢
      have hfs : firstSrc = r := by injection hhead with h2; exact h2.symm
      subst hfs
      unfold headRowOf
      by_cases hct : row_contains_text firstSrc
      · simp [TableRow.kind, hct, (row_contains_text_iff firstSrc).mp hct]
      · have hnex : ¬∃ s, Data.String s ∈ firstSrc := by
          intro hex
          exact hct ((row_contains_text_iff firstSrc).mpr hex)
        simp [TableRow.kind, hct, hnex]
    · intro rw2 hmem
      rw [hrows] at hmem
      simp only [List.tail_cons] at hmem
      obtain ⟨src, _, hsrc⟩ := List.mem_map.mp hmem
      rw [← hsrc]
      rfl

/-- C2 witness: on `[[String "Name"], [Int 1]]` the first row is a header. -/
theorem first_row_header_detection_witness :
    (Table.mk [TableRow.mk [cellOf (Data.String "Name")] TableRowKind.Header,
      TableRow.mk [cellOf (Data.Int 1)] TableRowKind.Body]).rows.head?.map
        TableRow.kind = some TableRowKind.Header :=
  ((first_row_header_detection [[Data.String "Name"], [Data.Int 1]] _ rfl).1
    [Data.String "Name"] rfl).mpr ⟨"Name", by simp⟩

/-- C5 counterexample: the claim says that after a zero-cell first row the
next row is classified `Body` even if it contains a `String` cell.  On the
grid `[[], [String "a"]]` the code classifies that row `Header`: the
`is_first_row` flag is NOT consumed by skipped rows. -/
theorem first_row_flag_counterexample :
    (parse_sheet_to_table [[], [Data.String "a"]]).map
      (fun t => t.rows.map TableRow.kind) = some [TableRowKind.Header] := by
  decide

/-- C5 amended: the `is_first_row` flag is consumed only by retained rows
(rows with at least one cell); a zero-cell row is skipped without clearing
it, so prepending a zero-cell row changes neither the loop state nor the
result, and the first row with cells still undergoes header detection. -/
theorem first_row_flag_amended (grid : Grid) (b : Bool) :
    parseRowsLoop ([] :: grid) b = parseRowsLoop grid b ∧
    parse_sheet_to_table ([] :: grid) = parse_sheet_to_table grid :=
  ⟨rfl, rfl⟩

end Excel

namespace Excel

/-- C3: `data_to_string` is total over the nine raw cell variants (it is a
Lean function defined by exhaustive match) and satisfies the spec's table:
`Int i` gives the decimal string of `i`, `String`, `DateTimeIso` and
`DurationIso` are verbatim, `Bool` gives "true"/"false", `Error e` gives
"Error: " followed by the debug rendering of `e`, and `Empty` gives "". -/
theorem data_to_string_table :
    (∀ i : I64, data_to_string (Data.Int i) = toString i) ∧
    (∀ s, data_to_string (Data.String s) = s) ∧
    (∀ s, data_to_string (Data.DateTimeIso s) = s) ∧
    (∀ s, data_to_string (Data.DurationIso s) = s) ∧
    (data_to_string (Data.Bool true) = "true" ∧
      data_to_string (Data.Bool false) = "false") ∧
    (∀ e, data_to_string (Data.Error e) = "Error: " ++ debugCellError e) ∧
    data_to_string Data.Empty = "" :=
  ⟨fun _ => rfl, fun _ => rfl, fun _ => rfl, fun _ => rfl, ⟨rfl, rfl⟩,
    fun _ => rfl, rfl⟩

lemma assembleBlocks_length (sheets : List (String × Except SheetReadError Grid)) :
    (assembleBlocks sheets).length = sheets.countP (fun s =>
      match s.2 with
      | Except.ok g => (parse_sheet_to_table g).isSome
      | Except.error _ => false) := by
  induction sheets with
  | nil => rfl
  | cons s rest ih =>
    obtain ⟨nm, r⟩ := s
    cases r with
    | error e => simpa [assembleBlocks, List.countP_cons] using ih
    | ok g =>
      cases hg : parse_sheet_to_table g with
      | none => simpa [assembleBlocks, hg, List.countP_cons] using ih
      | some tb => simp [assembleBlocks, hg, List.countP_cons, ih]

/-- C4: when the workbook open succeeds, `parse_buffer` returns `Ok`; a sheet
whose grid read failed is skipped without aborting the rest and contributes
zero blocks, and the block count equals the number of sheets whose read
succeeded and whose normalization produced a table. -/
theorem sheet_error_nonfatal_block_count (wb : Workbook) :
    (∃ d, parse_buffer (Except.ok wb) = Except.ok d ∧
      d.blocks.length = wb.sheets.countP (fun s =>
        match s.2 with
        | Except.ok g => (parse_sheet_to_table g).isSome
        | Except.error _ => false)) ∧
    (∀ nm e rest, assembleBlocks ((nm, Except.error e) :: rest) =
      assembleBlocks rest) :=
  ⟨⟨_, rfl, assembleBlocks_length wb.sheets⟩, fun _ _ _ => rfl⟩

/-- C8: `parse_buffer` fails exactly when the workbook open fails, and on
every success the document has empty notes, empty comments and default
metadata. -/
theorem parse_buffer_error_iff (r : Except DecodeError Workbook) :
    ((∃ e, parse_buffer r = Except.error e) ↔ ∃ e, r = Except.error e) ∧
    (∀ d, parse_buffer r = Except.ok d →
      d.notes = [] ∧ d.comments = [] ∧ d.metadata = DocumentMetadata.default) := by
  cases r with
  | error e =>
    refine ⟨⟨fun _ => ⟨e, rfl⟩, fun _ => ⟨e, rfl⟩⟩, ?_⟩
    intro d hd
    exact Except.noConfusion hd
  | ok wb =>
    constructor
    · constructor
      · rintro ⟨e, he⟩
        exact Except.noConfusion he
      · rintro ⟨e, he⟩
        exact Except.noConfusion he
    · intro d hd
      have hd2 : (⟨assembleBlocks wb.sheets, DocumentMetadata.default, [], []⟩ :
          Document) = d := by
        injection hd
      rw [← hd2]
      exact ⟨rfl, rfl, rfl⟩

/-- C8 witness: on a workbook with no sheets, `parse_buffer` succeeds and the
resulting document has empty notes, empty comments and default metadata. -/
theorem parse_buffer_error_iff_witness :
    (Document.mk [] DocumentMetadata.default [] []).notes = [] ∧
    (Document.mk [] DocumentMetadata.default [] []).comments = [] ∧
    (Document.mk [] DocumentMetadata.default [] []).metadata =
      DocumentMetadata.default :=
  (parse_buffer_error_iff (Except.ok (Workbook.mk []))).2 _ rfl

end Excel

namespace Excel

lemma row_contains_text_of_all_empty {row : List Data}
    (h : ∀ c ∈ row, c = Data.Empty) : row_contains_text row = false := by
  unfold row_contains_text
  rw [List.any_eq_false]
  intro c hc
  rw [h c hc]
  simp

/-- C6 counterexample: the claim says a sheet whose rows hold only `Empty`
cells contributes no block; on the grid `[[Empty]]` the code retains the row
(every cell, `Empty` included, becomes a table cell) and returns a table. -/
theorem empty_cells_sheet_counterexample :
    parse_sheet_to_table [[Data.Empty]] =
      some (Table.mk [TableRow.mk
        [TableCell.mk
          [Block.Paragraph ⟨ParagraphKind.Normal, [Inline.Text ""]⟩] 1 1]
        TableRowKind.Body]) := rfl

/-- C6 amended: for a grid all of whose cells are `Empty`, the sheet yields
no table exactly when every row has zero cells; when some row has a cell the
sheet DOES contribute a table, all of whose rows are `Body` rows made of
empty-text cells. -/
theorem empty_cells_sheet_amended (grid : Grid)
    (h : ∀ row ∈ grid, ∀ c ∈ row, c = Data.Empty) :
    (parse_sheet_to_table grid = none ↔ ∀ row ∈ grid, row = []) ∧
    (∀ t, parse_sheet_to_table grid = some t →
      ∀ r ∈ t.rows, r.kind = TableRowKind.Body ∧
        ∀ c ∈ r.cells,
          c = TableCell.mk
            [Block.Paragraph ⟨ParagraphKind.Normal, [Inline.Text ""]⟩] 1 1) := by
  refine ⟨parse_none_iff_all_nil grid, ?_⟩
  intro t ht r hr
  rw [parse_some_rows ht] at hr
  unfold normRows at hr
  cases hf : grid.filter (fun x => !x.isEmpty) with
  | nil => rw [hf] at hr; exact absurd hr (List.not_mem_nil _)
  | cons r0 rest =>
    rw [hf] at hr
    have hmemsrc : ∀ row ∈ grid.filter (fun x => !x.isEmpty),
        ∀ c ∈ row, c = Data.Empty := by
      intro row hrow
      exact h row (List.mem_filter.mp hrow).1
    have hcells : ∀ src : List Data, (∀ c ∈ src, c = Data.Empty) →
        ∀ c ∈ src.map cellOf,
          c = TableCell.mk
            [Block.Paragraph ⟨ParagraphKind.Normal, [Inline.Text ""]⟩] 1 1 := by
      intro src hsrc c hc
      obtain ⟨d, hd, hcd⟩ := List.mem_map.mp hc
      rw [← hcd, hsrc d hd]
      rfl
    rcases List.mem_cons.mp hr with h0 | hrest
    · have hr0 : r0 ∈ grid.filter (fun x => !x.isEmpty) := by
        rw [hf]; exact List.mem_cons_self _ _
      have hall : ∀ c ∈ r0, c = Data.Empty := hmemsrc r0 hr0
      subst h0
      unfold headRowOf
      rw [row_contains_text_of_all_empty hall]
      exact ⟨rfl, hcells r0 hall⟩
    · obtain ⟨src, hsrcmem, hsrc⟩ := List.mem_map.mp hrest
      have hsrcf : src ∈ grid.filter (fun x => !x.isEmpty) := by
        rw [hf]; exact List.mem_cons_of_mem _ hsrcmem
      have hall : ∀ c ∈ src, c = Data.Empty := hmemsrc src hsrcf
      rw [← hsrc]
      exact ⟨rfl, hcells src hall⟩

/-- C6 witness: the grid `[[Empty]]` has only `Empty` cells, the normalizer
returns a table for it, and that table's single row is a `Body` row made of
empty-text cells. -/
theorem empty_cells_sheet_amended_witness :
    (TableRow.mk [cellOf Data.Empty] TableRowKind.Body).kind = TableRowKind.Body ∧
    ∀ c ∈ (TableRow.mk [cellOf Data.Empty] TableRowKind.Body).cells,
      c = TableCell.mk
        [Block.Paragraph ⟨ParagraphKind.Normal, [Inline.Text ""]⟩] 1 1 :=
  (empty_cells_sheet_amended [[Data.Empty]] (by decide)).2 _ rfl _
    (List.mem_singleton.mpr rfl)

/-- C7: every table the normalizer returns has at least one row, and every
row it constructs has at least one cell. -/
theorem table_nonempty_invariants (grid : Grid) (t : Table)
    (h : parse_sheet_to_table grid = some t) :
    t.rows ≠ [] ∧ ∀ r ∈ t.rows, r.cells ≠ [] := by
  have hrows := parse_some_rows h
  unfold normRows at hrows
  cases hf : grid.filter (fun x => !x.isEmpty) with
  | nil =>
    rw [hf] at hrows
    exfalso
    unfold parse_sheet_to_table at h
    rw [parseRowsLoop_true] at h
    unfold normRows at h
    rw [hf] at h
    simp at h
  | cons r0 rest =>
    rw [hf] at hrows
    have hsrc_ne : ∀ src ∈ grid.filter (fun x => !x.isEmpty), src ≠ [] := by
      intro src hsrcmem
      have := (List.mem_filter.mp hsrcmem).2
      simpa [List.isEmpty_iff] using this
    constructor
    · rw [hrows]; exact List.cons_ne_nil _ _
    · intro r hr
      rw [hrows] at hr
      rcases List.mem_cons.mp hr with h0 | hrest
      · have : r0 ≠ [] := hsrc_ne r0 (by rw [hf]; exact List.mem_cons_self _ _)
        subst h0
        unfold headRowOf TableRow.cells
        simpa using this
      · obtain ⟨src, hsrcmem, hsrceq⟩ := List.mem_map.mp hrest
        have : src ≠ [] :=
          hsrc_ne src (by rw [hf]; exact List.mem_cons_of_mem _ hsrcmem)
        rw [← hsrceq]
        unfold bodyRowOf TableRow.cells
        simpa using this

/-- C7 witness: the table for `[[Int 1]]` has a nonempty row list and its
rows have nonempty cell lists. -/
theorem table_nonempty_invariants_witness :
    (Table.mk [TableRow.mk [cellOf (Data.Int 1)] TableRowKind.Body]).rows ≠ [] ∧
    ∀ r ∈ (Table.mk [TableRow.mk [cellOf (Data.Int 1)] TableRowKind.Body]).rows,
      r.cells ≠ [] :=
  table_nonempty_invariants [[Data.Int 1]] _ rfl

end Excel

namespace Excel

lemma parse_rows_cells_get (g : Grid) (t : Table)
    (h : parse_sheet_to_table g = some t) (i : Nat) :
    (t.rows.get? i).map TableRow.cells =
      ((g.filter (fun r => !r.isEmpty)).get? i).map (fun r => r.map cellOf) := by
  rw [parse_some_rows h]
  unfold normRows
  cases g.filter (fun r => !r.isEmpty) with
  | nil => simp
  | cons r rest =>
    cases i with
    | zero => rfl
    | succ n =>
      simp only [List.get?_cons_succ, List.get?_map]
      cases rest.get? n <;> rfl

/-- C9: each retained source row becomes a `TableRow` with one `TableCell`
per source cell in order, and each cell is exactly one `Paragraph` of kind
`Normal` holding one `Inline.Text` of the cell's stringification, with
`colspan = rowspan = 1`. -/
theorem retained_row_structure (grid : Grid) (t : Table)
    (h : parse_sheet_to_table grid = some t) :
    t.rows.length = (grid.filter (fun r => !r.isEmpty)).length ∧
    ∀ i row srcRow,
      t.rows.get? i = some row →
      (grid.filter (fun r => !r.isEmpty)).get? i = some srcRow →
      row.cells.length = srcRow.length ∧
      ∀ j c d, row.cells.get? j = some c → srcRow.get? j = some d →
        c = TableCell.mk
          [Block.Paragraph ⟨ParagraphKind.Normal,
            [Inline.Text (data_to_string d)]⟩] 1 1 := by
  constructor
  · rw [parse_some_rows h, normRows_length]
  · intro i row srcRow hrow hsrc
    have hc := parse_rows_cells_get grid t h i
    rw [hrow, hsrc] at hc
    have hcells : row.cells = srcRow.map cellOf := by simpa using hc
    constructor
    · rw [hcells, List.length_map]
    · intro j c d hcj hdj
      rw [hcells, List.get?_map, hdj] at hcj
      have hcd : cellOf d = c := by simpa using hcj
      rw [← hcd]
      rfl

/-- C9 witness: on `[[Int 7]]` the single retained row has one cell holding
one Normal paragraph with the text "7" and unit spans. -/
theorem retained_row_structure_witness :
    cellOf (Data.Int 7) = TableCell.mk
      [Block.Paragraph ⟨ParagraphKind.Normal,
        [Inline.Text (data_to_string (Data.Int 7))]⟩] 1 1 :=
  ((retained_row_structure [[Data.Int 7]]
      (Table.mk [TableRow.mk [cellOf (Data.Int 7)] TableRowKind.Body]) rfl).2
    0 (TableRow.mk [cellOf (Data.Int 7)] TableRowKind.Body) [Data.Int 7]
    rfl rfl).2 0 (cellOf (Data.Int 7)) (Data.Int 7) rfl rfl

/-- C10: in every table the normalizer returns, a row of kind `Header` can
only sit at position 0, and every row past the first has kind `Body`. -/
theorem header_only_first_position (grid : Grid) (t : Table)
    (h : parse_sheet_to_table grid = some t) :
    (∀ i r, t.rows.get? i = some r → r.kind = TableRowKind.Header → i = 0) ∧
    (∀ r ∈ t.rows.tail, r.kind = TableRowKind.Body) := by
  have hrows := parse_some_rows h
  unfold normRows at hrows
  cases hf : grid.filter (fun x => !x.isEmpty) with
  | nil =>
    rw [hf] at hrows
    constructor
    · intro i r hr
      rw [hrows] at hr
      simp at hr
    · intro r hr
      rw [hrows] at hr
      simp at hr
  | cons r0 rest =>
    rw [hf] at hrows
    have hbody : ∀ r ∈ rest.map bodyRowOf, r.kind = TableRowKind.Body := by
      intro r hr
      obtain ⟨src, _, hsrc⟩ := List.mem_map.mp hr
      rw [← hsrc]
      rfl
    constructor
    · intro i r hr hk
      cases i with
      | zero => rfl
      | succ n =>
        rw [hrows] at hr
        simp only [List.get?_cons_succ] at hr
        have : r ∈ rest.map bodyRowOf := List.get?_mem hr
        rw [hbody r this] at hk
        exact TableRowKind.noConfusion hk
    · intro r hr
      rw [hrows] at hr
      simp only [List.tail_cons] at hr
      exact hbody r hr

/-- C10 witness: on `[[String "Name"], [Int 1]]`, the header row sits at
position 0. -/
theorem header_only_first_position_witness : (0 : Nat) = 0 :=
  (header_only_first_position [[Data.String "Name"], [Data.Int 1]]
      (Table.mk [TableRow.mk [cellOf (Data.String "Name")] TableRowKind.Header,
        TableRow.mk [cellOf (Data.Int 1)] TableRowKind.Body]) rfl).1
    0 (TableRow.mk [cellOf (Data.String "Name")] TableRowKind.Header) rfl rfl

end Excel
